import Mathlib

/-!
# Verification of the zerodha-kite-app trading modules

Shallow embedding of the risk governor (`src/lib/trading/RiskManager.js`),
the strategy engine (`src/lib/trading/TradingStrategy.js`), the order
manager (`OrderManager`) and the market-data candle store
(`MarketDataService`), together with theorems settling the specification
claims about them.

JavaScript numbers are modelled as `ℚ` (all arithmetic in these modules is
exact on the inputs considered), counters as `ℕ`, and `Math.floor` as
`Int.floor`.  Falsy-or-default expressions (`x || 1`) and JS `Map`
semantics (insertion order, replace-in-place on existing keys) are
modelled explicitly.
-/

namespace KiteApp

/-- JS `x || d` on an optionally-set numeric field: `undefined` and `0` are
falsy, any other number is returned unchanged. -/
def jsOrDefault (x : Option ℚ) (d : ℚ) : ℚ :=
  match x with
  | none => d
  | some v => if v = 0 then d else v

/-! ## RiskManager (src/lib/trading/RiskManager.js) -/

/-- Configuration of `RiskManager` (constructor defaults merged with
overrides). -/
structure RMConfig where
  maxDailyLossPercent : ℚ
  maxTradesPerDay : ℕ
  maxPositionSizePercent : ℚ
  initialCapital : ℚ
  emergencyStopLossPercent : ℚ
  maxConsecutiveLosses : ℕ
  deriving Repr, DecidableEq

/-- The constructor defaults of `RiskManager`. -/
def RMConfig.default : RMConfig where
  maxDailyLossPercent := 2
  maxTradesPerDay := 5
  maxPositionSizePercent := 10
  initialCapital := 100000
  emergencyStopLossPercent := 5
  maxConsecutiveLosses := 3

/-- `this.dailyStats` of `RiskManager`. -/
structure DailyStats where
  totalPnL : ℚ
  tradesCount : ℕ
  consecutiveLosses : ℕ
  maxDrawdown : ℚ
  startingCapital : ℚ
  deriving Repr, DecidableEq

/-- `this.riskLimits` of `RiskManager`. -/
structure RiskLimits where
  dailyLossLimit : ℚ
  emergencyStopLimit : ℚ
  deriving Repr, DecidableEq

/-- The mutable state of a `RiskManager` instance. -/
structure RiskManager where
  config : RMConfig
  dailyStats : DailyStats
  riskLimits : RiskLimits
  deriving Repr, DecidableEq

/-- `new RiskManager(config)`: zeroed daily stats, starting capital equal to
the configured initial capital, limits computed as percentages of it. -/
def mkRiskManager (config : RMConfig) : RiskManager where
  config := config
  dailyStats :=
    { totalPnL := 0, tradesCount := 0, consecutiveLosses := 0
      maxDrawdown := 0, startingCapital := config.initialCapital }
  riskLimits :=
    { dailyLossLimit := config.initialCapital * config.maxDailyLossPercent / 100
      emergencyStopLimit := config.initialCapital * config.emergencyStopLossPercent / 100 }

/-- A `RiskManager` built from the constructor defaults. -/
def defaultRM : RiskManager := mkRiskManager RMConfig.default

/-- The blocking reason strings of `checkDailyLimits`, with their numeric
payloads (the formatted amounts interpolated into the message). -/
inductive BlockReason where
  | dailyLossLimitReached (amount : ℚ)
  | emergencyStopTriggered (amount : ℚ)
  | maxTradesReached (count : ℕ)
  | maxConsecutiveLossesReached (count : ℕ)
  deriving Repr, DecidableEq

/-- The warning strings of `checkDailyLimits`, with their payloads. -/
inductive RiskWarning where
  | approachingDailyLoss (pct : ℚ)
  | approachingTradeLimit (count : ℕ)
  deriving Repr, DecidableEq

/-- The `checks` object returned by `checkDailyLimits`; an empty `reason`
string is `none`. -/
structure RiskCheck where
  canTrade : Bool
  reason : Option BlockReason
  warnings : List RiskWarning
  deriving Repr, DecidableEq

/-- `RiskManager.checkDailyLimits(currentPnL, tradesCount)`: the four
blocking checks in source order, each returning immediately, then the two
warning accumulations. -/
def checkDailyLimits (rm : RiskManager) (currentPnL : ℚ) (tradesCount : ℕ) : RiskCheck :=
  if |currentPnL| ≥ rm.riskLimits.dailyLossLimit then
    ⟨false, some (.dailyLossLimitReached |currentPnL|), []⟩
  else if |currentPnL| ≥ rm.riskLimits.emergencyStopLimit then
    ⟨false, some (.emergencyStopTriggered |currentPnL|), []⟩
  else if tradesCount ≥ rm.config.maxTradesPerDay then
    ⟨false, some (.maxTradesReached tradesCount), []⟩
  else if rm.dailyStats.consecutiveLosses ≥ rm.config.maxConsecutiveLosses then
    ⟨false, some (.maxConsecutiveLossesReached rm.dailyStats.consecutiveLosses), []⟩
  else
    let lossPercentage := |currentPnL| / rm.config.initialCapital * 100
    let w1 : List RiskWarning :=
      if lossPercentage > rm.config.maxDailyLossPercent * (7 / 10) then
        [.approachingDailyLoss lossPercentage]
      else []
    let w2 : List RiskWarning :=
      if (tradesCount : ℚ) ≥ (rm.config.maxTradesPerDay : ℚ) * (8 / 10) then
        [.approachingTradeLimit tradesCount]
      else []
    ⟨true, none, w1 ++ w2⟩

/-- `RiskManager.updateDailyStats(trade)` restricted to its effect on the
stats (the trailing `logRiskMetrics()` call only logs). -/
def updateDailyStats (rm : RiskManager) (pnl : ℚ) : RiskManager :=
  let totalPnL := rm.dailyStats.totalPnL + pnl
  let consecutiveLosses :=
    if pnl < 0 then rm.dailyStats.consecutiveLosses + 1 else 0
  let maxDrawdown :=
    if totalPnL < rm.dailyStats.maxDrawdown then totalPnL else rm.dailyStats.maxDrawdown
  { rm with
      dailyStats :=
        { rm.dailyStats with
            totalPnL := totalPnL
            tradesCount := rm.dailyStats.tradesCount + 1
            consecutiveLosses := consecutiveLosses
            maxDrawdown := maxDrawdown } }

/-- `RiskManager.resetDailyStats()`: zero the counters, carry the ending
capital forward as the new starting capital, recompute both limits from the
new base. -/
def resetDailyStats (rm : RiskManager) : RiskManager :=
  let startingCapital := rm.config.initialCapital + rm.dailyStats.totalPnL
  { config := { rm.config with initialCapital := startingCapital }
    dailyStats :=
      { totalPnL := 0, tradesCount := 0, consecutiveLosses := 0
        maxDrawdown := 0, startingCapital := startingCapital }
    riskLimits :=
      { dailyLossLimit := startingCapital * rm.config.maxDailyLossPercent / 100
        emergencyStopLimit := startingCapital * rm.config.emergencyStopLossPercent / 100 } }

/-! ## TradingStrategy (src/lib/trading/TradingStrategy.js)

Wall-clock instants are modelled as milliseconds since local midnight
(`ℕ`); `Date.getHours`/`getMinutes` and the `parseTime`-based window
comparisons are expressed on that representation.  The order manager and
market data are passed in, as in the source: the venue outcome of the
single `placeOrder` call made by `enterPosition` is a `Bool`, and the
market snapshot is its `ltp`/`open` pair. -/

/-- Configuration of `TradingStrategy` (constructor defaults merged with
overrides); the `tradingStartTime`/`tradingEndTime` strings are carried as
the hour/minute pairs `parseTime` extracts from them. -/
structure StratConfig where
  initialCapital : ℚ
  positionSizePercent : ℚ
  initialProfitTarget : ℚ
  initialStopLoss : ℚ
  followUpProfitTarget : ℚ
  followUpStopLoss : ℚ
  followUpSizeReduction : ℚ
  maxTradesPerDay : ℕ
  startHour : ℕ
  startMinute : ℕ
  endHour : ℕ
  endMinute : ℕ
  deriving Repr, DecidableEq

/-- The constructor defaults of `TradingStrategy`. -/
def StratConfig.default : StratConfig where
  initialCapital := 100000
  positionSizePercent := 2
  initialProfitTarget := 0.75
  initialStopLoss := 0.35
  followUpProfitTarget := 0.35
  followUpStopLoss := 0.15
  followUpSizeReduction := 0.5
  maxTradesPerDay := 5
  startHour := 10
  startMinute := 0
  endHour := 15
  endMinute := 15

/-- `transaction_type` values. -/
inductive TxnType where
  | BUY
  | SELL
  deriving Repr, DecidableEq

/-- Exit reasons recorded by `recordTrade`. -/
inductive ExitReason where
  | TARGET_HIT
  | STOP_LOSS_HIT
  deriving Repr, DecidableEq

/-- `this.state.currentPosition` entries.  `exitReason` mirrors the JS
object property of the same name: absent (`none`) on every position built
by `enterPosition`. -/
structure Position where
  entryPrice : ℚ
  quantity : ℤ
  direction : TxnType
  targetPrice : ℚ
  stopLossPrice : ℚ
  isFollowUp : Bool
  exitReason : Option ExitReason
  deriving Repr, DecidableEq

/-- A record pushed onto `dailyTrades` by `recordTrade`. -/
structure TradeRecord where
  position : Position
  exitReason : ExitReason
  pnl : ℚ
  deriving Repr, DecidableEq

/-- The mutable strategy state.  `candleEndTime` starts as JS `null`, which
the `>=` comparison in `isCandleComplete` coerces to `0`, so it is carried
as `ℕ` with initial value `0`; `nextPositionSizeMultiplier` starts
`undefined` (`none`). -/
structure StratState where
  currentPosition : Option Position
  dailyTrades : List TradeRecord
  dailyPnL : ℚ
  waitingForCandle : Bool
  candleEndTime : ℕ
  nextPositionSizeMultiplier : Option ℚ
  deriving Repr, DecidableEq

/-- The initial strategy state from the constructor. -/
def initStratState : StratState where
  currentPosition := none
  dailyTrades := []
  dailyPnL := 0
  waitingForCandle := false
  candleEndTime := 0
  nextPositionSizeMultiplier := none

/-- Results of `execute` and its helpers.  `UNDEFINED_RESULT` is the
implicit `undefined` returned by `enterPosition` when the order placement
reports failure without throwing; `ERROR` is the catch-all branch. -/
inductive StratAction where
  | NO_ACTION
  | WAITING
  | MONITORING
  | POSITION_ENTERED
  | TARGET_HIT
  | STOP_LOSS_HIT
  | UNDEFINED_RESULT
  | ERROR
  deriving Repr, DecidableEq

/-- Milliseconds since midnight of `parseTime(tradingStartTime)`. -/
def startTimeMs (cfg : StratConfig) : ℕ :=
  (cfg.startHour * 60 + cfg.startMinute) * 60000

/-- Milliseconds since midnight of `parseTime(tradingEndTime)`. -/
def endTimeMs (cfg : StratConfig) : ℕ :=
  (cfg.endHour * 60 + cfg.endMinute) * 60000

/-- `Date.getHours()` on a milliseconds-since-midnight instant. -/
def getHours (now : ℕ) : ℕ := now / 3600000

/-- `Date.getMinutes()` on a milliseconds-since-midnight instant. -/
def getMinutes (now : ℕ) : ℕ := now % 3600000 / 60000

/-- `TradingStrategy.isMarketHours()`: `now >= startTime && now <= endTime`
(both bounds inclusive). -/
def isMarketHours (cfg : StratConfig) (now : ℕ) : Bool :=
  decide (startTimeMs cfg ≤ now) && decide (now ≤ endTimeMs cfg)

/-- `TradingStrategy.isCandleComplete()`. -/
def isCandleComplete (st : StratState) (now : ℕ) : Bool :=
  decide (st.candleEndTime ≤ now)

/-- `TradingStrategy.getNextCandleEndTime()`: the top of the next hour. -/
def getNextCandleEndTime (now : ℕ) : ℕ :=
  (now / 3600000 + 1) * 3600000

/-- `TradingStrategy.calculatePositionSize()`: floor of the capital
fraction at the assumed ₹100 unit price, scaled by
`this.state.nextPositionSizeMultiplier || 1` and floored again. -/
def calculatePositionSize (cfg : StratConfig) (mult : Option ℚ) : ℤ :=
  let baseSize : ℤ := ⌊cfg.initialCapital * cfg.positionSizePercent / 100 / 100⌋
  ⌊(baseSize : ℚ) * jsOrDefault mult 1⌋

/-- `TradingStrategy.generateEntrySignal(marketData)`. -/
structure EntrySignal where
  shouldEnter : Bool
  direction : TxnType
  entryPrice : ℚ
  deriving Repr, DecidableEq

/-- Momentum entry signal: long when `ltp > open`. -/
def generateEntrySignal (ltp openPrice : ℚ) : EntrySignal :=
  ⟨decide (openPrice < ltp), .BUY, ltp⟩

/-- `TradingStrategy.calculatePnL(position)`.  The position handed to it by
`recordTrade` never carries an `exitReason` property, so `targetHit`
compares `undefined` with `'TARGET_HIT'`. -/
def calculatePnL (cfg : StratConfig) (p : Position) : ℚ :=
  let targetHit := p.exitReason = some ExitReason.TARGET_HIT
  let profitPercent :=
    if targetHit then
      if p.isFollowUp then cfg.followUpProfitTarget else cfg.initialProfitTarget
    else
      -(if p.isFollowUp then cfg.followUpStopLoss else cfg.initialStopLoss)
  p.entryPrice * (p.quantity : ℚ) * profitPercent / 100

/-- `TradingStrategy.recordTrade(position, exitReason)`: append the trade,
accumulate its P&L into `dailyPnL`, clear `currentPosition`. -/
def recordTrade (cfg : StratConfig) (st : StratState) (p : Position)
    (reason : ExitReason) : StratState :=
  let trade : TradeRecord := ⟨p, reason, calculatePnL cfg p⟩
  { st with
      dailyTrades := st.dailyTrades ++ [trade]
      dailyPnL := st.dailyPnL + trade.pnl
      currentPosition := none }

/-- `TradingStrategy.handleTargetHit(orderManager)`: close, record, wait
for the candle boundary, halve the next size.  With no open position the
JS body throws inside `recordTrade` before mutating, surfacing as the
`ERROR` branch of `execute`. -/
def handleTargetHit (cfg : StratConfig) (st : StratState) (now : ℕ) :
    StratAction × StratState :=
  match st.currentPosition with
  | none => (.ERROR, st)
  | some p =>
    let st := recordTrade cfg st p .TARGET_HIT
    (.TARGET_HIT,
      { st with
          waitingForCandle := true
          candleEndTime := getNextCandleEndTime now
          nextPositionSizeMultiplier := some cfg.followUpSizeReduction })

/-- `TradingStrategy.handleStopLossHit(orderManager)`: close, record, wait
for the candle boundary, reset the size multiplier to 1. -/
def handleStopLossHit (cfg : StratConfig) (st : StratState) (now : ℕ) :
    StratAction × StratState :=
  match st.currentPosition with
  | none => (.ERROR, st)
  | some p =>
    let st := recordTrade cfg st p .STOP_LOSS_HIT
    (.STOP_LOSS_HIT,
      { st with
          waitingForCandle := true
          candleEndTime := getNextCandleEndTime now
          nextPositionSizeMultiplier := some 1 })

/-- `TradingStrategy.enterPosition(signal, orderManager)`, with the venue
outcome of the inner `placeOrder` call supplied as `orderSuccess`.  The
target/stop percentages and `isFollowUp` are chosen by testing
`this.state.currentPosition`. -/
def enterPosition (cfg : StratConfig) (st : StratState) (signal : EntrySignal)
    (orderSuccess : Bool) : StratAction × StratState :=
  let positionSize := calculatePositionSize cfg st.nextPositionSizeMultiplier
  let profitTarget :=
    if st.currentPosition.isSome then cfg.followUpProfitTarget else cfg.initialProfitTarget
  let stopLossPercent :=
    if st.currentPosition.isSome then cfg.followUpStopLoss else cfg.initialStopLoss
  let targetPrice := signal.entryPrice * (1 + profitTarget / 100)
  let stopLossPrice := signal.entryPrice * (1 - stopLossPercent / 100)
  if orderSuccess then
    (.POSITION_ENTERED,
      { st with
          currentPosition := some
            { entryPrice := signal.entryPrice
              quantity := positionSize
              direction := signal.direction
              targetPrice := targetPrice
              stopLossPrice := stopLossPrice
              isFollowUp := st.currentPosition.isSome
              exitReason := none } })
  else
    (.UNDEFINED_RESULT, st)

/-- `TradingStrategy.lookForEntry(marketData, orderManager)`: entries only
in the exact start minute. -/
def lookForEntry (cfg : StratConfig) (st : StratState) (now : ℕ)
    (ltp openPrice : ℚ) (orderSuccess : Bool) : StratAction × StratState :=
  if getHours now = cfg.startHour ∧ getMinutes now = cfg.startMinute then
    let signal := generateEntrySignal ltp openPrice
    if signal.shouldEnter then enterPosition cfg st signal orderSuccess
    else (.NO_ACTION, st)
  else (.NO_ACTION, st)

/-- `TradingStrategy.manageExistingPosition(marketData, orderManager)`. -/
def manageExistingPosition (cfg : StratConfig) (st : StratState) (now : ℕ)
    (ltp : ℚ) : StratAction × StratState :=
  match st.currentPosition with
  | none => (.ERROR, st)
  | some p =>
    if p.direction = TxnType.BUY then
      if p.targetPrice ≤ ltp then handleTargetHit cfg st now
      else if ltp ≤ p.stopLossPrice then handleStopLossHit cfg st now
      else (.MONITORING, st)
    else (.MONITORING, st)

/-- `TradingStrategy.execute(marketData, orderManager, riskManager)`: the
trading-hours gate, the risk gate, the candle-wait gate, then position
management or entry search. -/
def execute (cfg : StratConfig) (rm : RiskManager) (st : StratState)
    (now : ℕ) (ltp openPrice : ℚ) (orderSuccess : Bool) :
    StratAction × StratState :=
  if isMarketHours cfg now then
    let riskCheck := checkDailyLimits rm st.dailyPnL st.dailyTrades.length
    if riskCheck.canTrade then
      if st.waitingForCandle then
        if isCandleComplete st now then
          let st := { st with waitingForCandle := false }
          if st.currentPosition.isSome then manageExistingPosition cfg st now ltp
          else lookForEntry cfg st now ltp openPrice orderSuccess
        else (.WAITING, st)
      else
        if st.currentPosition.isSome then manageExistingPosition cfg st now ltp
        else lookForEntry cfg st now ltp openPrice orderSuccess
    else (.NO_ACTION, st)
  else (.NO_ACTION, st)

/-! ## OrderManager (`placeOrder` retry logic)

The venue is the injected Kite client: submission `n` (0-based) either
yields an order id or fails (API error / missing id / thrown validation
error, all routed through the same `catch`).  The recursion
`placeOrder(params, retryCount+1)` is bounded because it only recurses
while `retryCount < retryAttempts`; it is rendered with an explicit fuel
of `retryAttempts + 1 - retryCount`, which the recursion preserves
exactly, so the fuel-exhaustion clause is unreachable. -/

/-- Result of `OrderManager.placeOrder`.  The success object carries the
order id; the failure object carries the `attempts` count
(`retryCount + 1`). -/
inductive OrderResult where
  | ok (order_id : ℕ)
  | failed (attempts : ℕ)
  deriving Repr, DecidableEq

/-- One try/catch round of `placeOrder` plus its recursive retries,
structured on explicit fuel.  `paramsValid = false` makes every round
throw at validation; otherwise round `n` succeeds iff `venue n` yields an
order id. -/
def placeOrderGo (retryAttempts : ℕ) (venue : ℕ → Option ℕ)
    (paramsValid : Bool) : ℕ → ℕ → OrderResult
  | 0, retryCount => .failed (retryCount + 1)
  | fuel + 1, retryCount =>
    match (if paramsValid then venue retryCount else none) with
    | some id => .ok id
    | none =>
      if retryCount < retryAttempts then
        placeOrderGo retryAttempts venue paramsValid fuel (retryCount + 1)
      else .failed (retryCount + 1)

/-- `OrderManager.placeOrder(orderParams, retryCount)`. -/
def placeOrder (retryAttempts : ℕ) (venue : ℕ → Option ℕ)
    (paramsValid : Bool) (retryCount : ℕ) : OrderResult :=
  placeOrderGo retryAttempts venue paramsValid
    (retryAttempts + 1 - retryCount) retryCount

/-- The `orderResult.success` flag `enterPosition` branches on. -/
def orderSuccessOf : OrderResult → Bool
  | .ok _ => true
  | .failed _ => false

/-! ## MarketDataService (candle store and aggregation)

`this.candleData.get(symbol)` is a JS `Map` keyed by epoch-milliseconds,
modelled as an association list in insertion order: `set` on an existing
key overwrites in place, `set` on a fresh key appends, `delete` removes
the keyed entry. -/

/-- An OHLCV candle.  `openPrice` is the JS `open` field (`open` is a Lean
keyword). -/
structure Candle where
  timestamp : ℕ
  openPrice : ℚ
  high : ℚ
  low : ℚ
  close : ℚ
  volume : ℚ
  deriving Repr, DecidableEq

/-- `Map.get`. -/
def lookupCandle : List (ℕ × Candle) → ℕ → Option Candle
  | [], _ => none
  | e :: t, k => if e.1 = k then some e.2 else lookupCandle t k

/-- `Map.set`: overwrite in place when the key exists, append otherwise. -/
def setCandle (store : List (ℕ × Candle)) (k : ℕ) (c : Candle) :
    List (ℕ × Candle) :=
  if (lookupCandle store k).isSome then
    store.map fun e => if e.1 = k then (k, c) else e
  else store ++ [(k, c)]

/-- `Map.delete`. -/
def deleteCandle (store : List (ℕ × Candle)) (k : ℕ) : List (ℕ × Candle) :=
  store.filter fun e => decide (e.1 ≠ k)

/-- `Math.min(...keys)`; the `[]` default is never consulted (the spread
over an empty key set would give `Infinity`, and eviction only runs on a
store of more than 1000 entries). -/
def minKey : List ℕ → ℕ
  | [] => 0
  | a :: t => t.foldl min a

/-- The update-or-create phase of
`MarketDataService.updateCandleData(symbol, data)`: mutate the
current-minute candle in place, or `set` a fresh one. -/
def updateCandleSet (store : List (ℕ × Candle)) (minuteKey : ℕ)
    (ltp volume : ℚ) : List (ℕ × Candle) :=
  match lookupCandle store minuteKey with
  | some cur =>
    setCandle store minuteKey
      { cur with
          high := max cur.high ltp
          low := min cur.low ltp
          close := ltp
          volume := volume }
  | none =>
    setCandle store minuteKey
      { timestamp := minuteKey, openPrice := ltp, high := ltp, low := ltp
        close := ltp, volume := volume }

/-- `MarketDataService.updateCandleData(symbol, data)` on one symbol's
store: the update-or-create phase, then eviction of the smallest key when
more than 1000 candles are kept. -/
def updateCandleData (store : List (ℕ × Candle)) (minuteKey : ℕ)
    (ltp volume : ℚ) : List (ℕ × Candle) :=
  let mid := updateCandleSet store minuteKey ltp volume
  if mid.length > 1000 then deleteCandle mid (minKey (mid.map Prod.fst))
  else mid

/-- The candle-storing loop of `MarketDataService.loadHistoricalData()` on
one symbol's store: each fetched candle is `set` under its timestamp, with
no retention trimming. -/
def loadHistoricalData (store : List (ℕ × Candle)) (hist : List Candle) :
    List (ℕ × Candle) :=
  hist.foldl (fun s c => setCandle s c.timestamp c) store

/-- `Math.max(...l)` on a non-empty list (`0` stands for the `-Infinity`
of an empty spread, never consulted below). -/
def maxList : List ℚ → ℚ
  | [] => 0
  | a :: t => t.foldl max a

/-- `Math.min(...l)` on a non-empty list. -/
def minList : List ℚ → ℚ
  | [] => 0
  | a :: t => t.foldl min a

/-- `MarketDataService.aggregateCandles(candles, minutes)`: batches of
`minutes` consecutive candles, each collapsed to first-open / max-high /
min-low / last-close / summed-volume under the first candle's
timestamp. -/
def aggregateCandles (minutes : ℕ) : List Candle → List Candle
  | [] => []
  | c :: rest =>
    let batch := c :: rest.take (minutes - 1)
    { timestamp := c.timestamp
      openPrice := c.openPrice
      high := maxList (batch.map Candle.high)
      low := minList (batch.map Candle.low)
      close := ((rest.take (minutes - 1)).getLastD c).close
      volume := (batch.map Candle.volume).sum } ::
    aggregateCandles minutes (rest.drop (minutes - 1))
termination_by l => l.length
decreasing_by
  simp only [List.length_cons, List.length_drop]
  omega

/-! ## Concrete demonstration inputs -/

/-- A strategy configuration with capital 105000 (all other parameters at
their defaults). -/
def cfg105 : StratConfig := { StratConfig.default with initialCapital := 105000 }

/-- A fresh default-config position entered at 100: base quantity 20,
initial target `100 × 1.0075`, initial stop `100 × 0.9965`. -/
def demoPosition : Position where
  entryPrice := 100
  quantity := 20
  direction := .BUY
  targetPrice := 100.75
  stopLossPrice := 99.65
  isFollowUp := false
  exitReason := none

/-- The strategy state holding `demoPosition`. -/
def demoInPosition : StratState :=
  { initStratState with currentPosition := some demoPosition }

/-- A deterministic minute candle: timestamp `i`, all prices `i + 1`,
volume `1`. -/
def demoCandle (i : ℕ) : Candle where
  timestamp := i
  openPrice := (i : ℚ) + 1
  high := (i : ℚ) + 1
  low := (i : ℚ) + 1
  close := (i : ℚ) + 1
  volume := 1

/-- 59 consecutive demo minute candles starting at timestamp 1. -/
def demo59 : List Candle := (List.range 59).map fun i => demoCandle (i + 1)

/-- 1001 demo minute candles with pairwise distinct timestamps. -/
def demo1001 : List Candle := (List.range 1001).map demoCandle

/-! ## Claims about the risk governor -/

/-- **C1** — `checkDailyLimits(currentPnL, tradesCount)` evaluates its four
blocking conditions in the fixed order daily-loss, emergency-stop,
max-trades, consecutive-losses; the first condition that holds yields
`canTrade = false` with that condition's reason and an empty warning list
(no later check or warning is evaluated), and when none holds the result
has `canTrade = true`. -/
theorem checkDailyLimits_short_circuit_order (rm : RiskManager) (pnl : ℚ) (tc : ℕ) :
    (|pnl| ≥ rm.riskLimits.dailyLossLimit →
      checkDailyLimits rm pnl tc =
        ⟨false, some (.dailyLossLimitReached |pnl|), []⟩) ∧
    (¬ |pnl| ≥ rm.riskLimits.dailyLossLimit →
      |pnl| ≥ rm.riskLimits.emergencyStopLimit →
      checkDailyLimits rm pnl tc =
        ⟨false, some (.emergencyStopTriggered |pnl|), []⟩) ∧
    (¬ |pnl| ≥ rm.riskLimits.dailyLossLimit →
      ¬ |pnl| ≥ rm.riskLimits.emergencyStopLimit →
      tc ≥ rm.config.maxTradesPerDay →
      checkDailyLimits rm pnl tc = ⟨false, some (.maxTradesReached tc), []⟩) ∧
    (¬ |pnl| ≥ rm.riskLimits.dailyLossLimit →
      ¬ |pnl| ≥ rm.riskLimits.emergencyStopLimit →
      ¬ tc ≥ rm.config.maxTradesPerDay →
      rm.dailyStats.consecutiveLosses ≥ rm.config.maxConsecutiveLosses →
      checkDailyLimits rm pnl tc =
        ⟨false, some (.maxConsecutiveLossesReached rm.dailyStats.consecutiveLosses), []⟩) ∧
    (¬ |pnl| ≥ rm.riskLimits.dailyLossLimit →
      ¬ |pnl| ≥ rm.riskLimits.emergencyStopLimit →
      ¬ tc ≥ rm.config.maxTradesPerDay →
      ¬ rm.dailyStats.consecutiveLosses ≥ rm.config.maxConsecutiveLosses →
      (checkDailyLimits rm pnl tc).canTrade = true ∧
        (checkDailyLimits rm pnl tc).reason = none) := by
  refine ⟨?_, ?_, ?_, ?_, ?_⟩ <;> intros <;> simp [checkDailyLimits, *]

/-- Witness for C1: at the default configuration a P&L of 5000 trips the
first (daily-loss) check. -/
theorem checkDailyLimits_short_circuit_order_witness :
    |(5000 : ℚ)| ≥ defaultRM.riskLimits.dailyLossLimit ∧
    checkDailyLimits defaultRM 5000 0 =
      ⟨false, some (.dailyLossLimitReached |(5000 : ℚ)|), []⟩ := by
  have h : |(5000 : ℚ)| ≥ defaultRM.riskLimits.dailyLossLimit := by
    norm_num [defaultRM, mkRiskManager, RMConfig.default, abs_of_nonneg]
  exact ⟨h, (checkDailyLimits_short_circuit_order defaultRM 5000 0).1 h⟩

/-- **C5** — `resetDailyStats()` carries the previous capital plus the
day's cumulative P&L forward as the new starting capital, zeroes
`totalPnL`, `tradesCount`, `consecutiveLosses` and `maxDrawdown`, and
recomputes both absolute limits from the new capital base; in particular a
day ending at +5000 on the default capital makes the next day start at
105000. -/
theorem resetDailyStats_rollover (rm : RiskManager) :
    (resetDailyStats rm).dailyStats.startingCapital =
      rm.config.initialCapital + rm.dailyStats.totalPnL ∧
    (resetDailyStats rm).config.initialCapital =
      rm.config.initialCapital + rm.dailyStats.totalPnL ∧
    (resetDailyStats rm).dailyStats.totalPnL = 0 ∧
    (resetDailyStats rm).dailyStats.tradesCount = 0 ∧
    (resetDailyStats rm).dailyStats.consecutiveLosses = 0 ∧
    (resetDailyStats rm).dailyStats.maxDrawdown = 0 ∧
    (resetDailyStats rm).riskLimits.dailyLossLimit =
      (rm.config.initialCapital + rm.dailyStats.totalPnL) *
        rm.config.maxDailyLossPercent / 100 ∧
    (resetDailyStats rm).riskLimits.emergencyStopLimit =
      (rm.config.initialCapital + rm.dailyStats.totalPnL) *
        rm.config.emergencyStopLossPercent / 100 ∧
    (resetDailyStats (updateDailyStats defaultRM 5000)).dailyStats.startingCapital
      = 105000 :=
  ⟨rfl, rfl, rfl, rfl, rfl, rfl, rfl, rfl, by
    norm_num [resetDailyStats, updateDailyStats, defaultRM, mkRiskManager,
      RMConfig.default]⟩

/-- **C9** — recording a trade with exactly zero P&L resets the
consecutive-loss streak to 0 (the `trade.pnl < 0` test fails), still
increments the daily trade count, and leaves the cumulative P&L
unchanged. -/
theorem updateDailyStats_zero_pnl (rm : RiskManager) (pnl : ℚ) (h : pnl = 0) :
    (updateDailyStats rm pnl).dailyStats.consecutiveLosses = 0 ∧
    (updateDailyStats rm pnl).dailyStats.tradesCount =
      rm.dailyStats.tradesCount + 1 ∧
    (updateDailyStats rm pnl).dailyStats.totalPnL = rm.dailyStats.totalPnL := by
  subst h
  refine ⟨?_, rfl, ?_⟩ <;> simp [updateDailyStats]

/-- Witness for C9 at the default risk manager. -/
theorem updateDailyStats_zero_pnl_witness :
    (0 : ℚ) = 0 ∧
    ((updateDailyStats defaultRM 0).dailyStats.consecutiveLosses = 0 ∧
      (updateDailyStats defaultRM 0).dailyStats.tradesCount =
        defaultRM.dailyStats.tradesCount + 1 ∧
      (updateDailyStats defaultRM 0).dailyStats.totalPnL =
        defaultRM.dailyStats.totalPnL) :=
  ⟨rfl, updateDailyStats_zero_pnl defaultRM 0 rfl⟩

/-- **C10** — whenever `dailyLossLimit ≤ emergencyStopLimit` (as under the
default 2% / 5% configuration) the emergency-stop branch of
`checkDailyLimits` is unreachable: no `(currentPnL, tradesCount)` input
produces the emergency-stop reason, because any P&L at or beyond the
emergency threshold already trips the daily-loss check first. -/
theorem checkDailyLimits_emergency_unreachable (rm : RiskManager)
    (h : rm.riskLimits.dailyLossLimit ≤ rm.riskLimits.emergencyStopLimit)
    (pnl : ℚ) (tc : ℕ) :
    ∀ a : ℚ, (checkDailyLimits rm pnl tc).reason ≠ some (.emergencyStopTriggered a) := by
  intro a
  unfold checkDailyLimits
  split_ifs with h1 h2 h3 h4 <;> simp
  exact absurd (le_trans h h2) h1

/-- Witness for C10: the default limits satisfy the hypothesis and a 5000
P&L does not produce the emergency reason. -/
theorem checkDailyLimits_emergency_unreachable_witness :
    defaultRM.riskLimits.dailyLossLimit ≤ defaultRM.riskLimits.emergencyStopLimit ∧
    ∀ a : ℚ,
      (checkDailyLimits defaultRM 5000 0).reason ≠ some (.emergencyStopTriggered a) := by
  have h : defaultRM.riskLimits.dailyLossLimit ≤ defaultRM.riskLimits.emergencyStopLimit := by
    norm_num [defaultRM, mkRiskManager, RMConfig.default]
  exact ⟨h, checkDailyLimits_emergency_unreachable defaultRM h 5000 0⟩

/-! ## Claims about the strategy engine -/

/-- **C2 (counterexample)** — the claimed size formula
`floor((capital × pct/100) / unitPrice) × multiplier` disagrees with the
code when the base size is odd: at capital 105000, 2% and multiplier 0.5
the code yields `floor(21 × 0.5) = 10`, not `21 × 0.5 = 10.5`. -/
theorem calculatePositionSize_no_outer_floor_counterexample :
    ¬ ((calculatePositionSize cfg105 (some (1 / 2)) : ℚ) =
      (⌊cfg105.initialCapital * cfg105.positionSizePercent / 100 / 100⌋ : ℚ) * (1 / 2)) := by
  have hb : cfg105.initialCapital * cfg105.positionSizePercent / 100 / 100 = (21 : ℚ) := by
    norm_num [cfg105, StratConfig.default]
  simp only [calculatePositionSize, jsOrDefault, hb]
  norm_num

/-- **C2 (amended)** — the position quantity is
`floor(floor((capital × positionSizePercent/100) / 100) × multiplier)`
(the product with the multiplier is floored again), where the multiplier
is 1 on a fresh entry (`none`), is set to `followUpSizeReduction` by a
profit-target exit and back to 1 by a stop-loss exit; at capital 100000
and 2% this gives 20 at multiplier 1 and 10 at multiplier 0.5. -/
theorem calculatePositionSize_spec (cfg : StratConfig) (st : StratState)
    (now : ℕ) (p : Position) (hp : st.currentPosition = some p) :
    calculatePositionSize cfg none =
      ⌊cfg.initialCapital * cfg.positionSizePercent / 100 / 100⌋ ∧
    (∀ m : ℚ, m ≠ 0 → calculatePositionSize cfg (some m) =
      ⌊(⌊cfg.initialCapital * cfg.positionSizePercent / 100 / 100⌋ : ℚ) * m⌋) ∧
    (handleTargetHit cfg st now).2.nextPositionSizeMultiplier =
      some cfg.followUpSizeReduction ∧
    (handleStopLossHit cfg st now).2.nextPositionSizeMultiplier = some 1 ∧
    calculatePositionSize StratConfig.default none = 20 ∧
    calculatePositionSize StratConfig.default (some (1 / 2)) = 10 := by
  have hb20 : StratConfig.default.initialCapital *
      StratConfig.default.positionSizePercent / 100 / 100 = (20 : ℚ) := by
    norm_num [StratConfig.default]
  refine ⟨?_, ?_, ?_, ?_, ?_, ?_⟩
  · simp [calculatePositionSize, jsOrDefault]
  · intro m hm
    simp [calculatePositionSize, jsOrDefault, hm]
  · simp [handleTargetHit, hp, recordTrade]
  · simp [handleStopLossHit, hp, recordTrade]
  · simp only [calculatePositionSize, jsOrDefault, hb20]
    norm_num
  · simp only [calculatePositionSize, jsOrDefault, hb20]
    norm_num

/-- Witness for the amended C2 at the default configuration and the demo
open position. -/
theorem calculatePositionSize_spec_witness :
    demoInPosition.currentPosition = some demoPosition ∧
    (calculatePositionSize StratConfig.default none =
      ⌊StratConfig.default.initialCapital *
        StratConfig.default.positionSizePercent / 100 / 100⌋ ∧
    (∀ m : ℚ, m ≠ 0 → calculatePositionSize StratConfig.default (some m) =
      ⌊(⌊StratConfig.default.initialCapital *
          StratConfig.default.positionSizePercent / 100 / 100⌋ : ℚ) * m⌋) ∧
    (handleTargetHit StratConfig.default demoInPosition 36060000).2.nextPositionSizeMultiplier =
      some StratConfig.default.followUpSizeReduction ∧
    (handleStopLossHit StratConfig.default demoInPosition 36060000).2.nextPositionSizeMultiplier =
      some 1 ∧
    calculatePositionSize StratConfig.default none = 20 ∧
    calculatePositionSize StratConfig.default (some (1 / 2)) = 10) :=
  ⟨rfl, calculatePositionSize_spec StratConfig.default demoInPosition 36060000
    demoPosition rfl⟩

/-- **C3 (code bug)** — after a profit-target exit the next entry still
prices its target and stop from the *initial* percentages: `recordTrade`
nulls `state.currentPosition` before the next entry, so the
`state.currentPosition ? followUp : initial` selection inside
`enterPosition` can never pick the follow-up branch, contradicting the
config's own "Follow-up trade parameters (after profit target hit)"
intent (the reduced size multiplier *is* carried, the tighter percentages
are not). -/
theorem enterPosition_after_target_ignores_followUp_percents :
    (handleTargetHit StratConfig.default demoInPosition 36060000).2.nextPositionSizeMultiplier =
      some StratConfig.default.followUpSizeReduction ∧
    ((enterPosition StratConfig.default
        (handleTargetHit StratConfig.default demoInPosition 36060000).2
        (generateEntrySignal 100 99) true).2.currentPosition.map Position.targetPrice) =
      some (100 * (1 + StratConfig.default.initialProfitTarget / 100)) ∧
    ((enterPosition StratConfig.default
        (handleTargetHit StratConfig.default demoInPosition 36060000).2
        (generateEntrySignal 100 99) true).2.currentPosition.map Position.stopLossPrice) =
      some (100 * (1 - StratConfig.default.initialStopLoss / 100)) ∧
    100 * (1 + StratConfig.default.initialProfitTarget / 100) ≠
      (100 : ℚ) * (1 + StratConfig.default.followUpProfitTarget / 100) := by
  refine ⟨?_, ?_, ?_, ?_⟩
  · simp [handleTargetHit, demoInPosition, recordTrade]
  · simp [handleTargetHit, demoInPosition, recordTrade, enterPosition,
      generateEntrySignal]
  · simp [handleTargetHit, demoInPosition, recordTrade, enterPosition,
      generateEntrySignal]
  · norm_num [StratConfig.default]

/-! ## Claims about order placement -/

/-- Retry rounds with an always-failing venue run until
`retryCount = retryAttempts` and report `retryAttempts + 1` attempts. -/
theorem placeOrderGo_all_fail (k : ℕ) (venue : ℕ → Option ℕ)
    (hv : ∀ n, venue n = none) :
    ∀ fuel rc, fuel + rc = k + 1 → rc ≤ k →
      placeOrderGo k venue true fuel rc = .failed (k + 1) := by
  intro fuel
  induction fuel with
  | zero => intro rc h1 h2; omega
  | succ f ih =>
    intro rc h1 h2
    simp only [placeOrderGo, if_true, hv rc]
    by_cases hrc : rc < k
    · rw [if_pos hrc]
      exact ih (rc + 1) (by omega) (by omega)
    · rw [if_neg hrc]
      have : rc = k := by omega
      rw [this]

/-- **C4 (counterexample)** — with 3 configured retry attempts and a venue
that always fails, `placeOrder` returns a failure whose `attempts` field
is 4 (the initial attempt plus 3 retries), not 3. -/
theorem placeOrder_three_retries_counterexample :
    placeOrder 3 (fun _ => none) true 0 = .failed 4 ∧ (4 : ℕ) ≠ 3 := by
  constructor
  · exact placeOrderGo_all_fail 3 (fun _ => none) (fun _ => rfl) 4 0 rfl (by omega)
  · omega

/-- **C4 (amended)** — `placeOrder` configured with 3 retry attempts and a
venue on which every submission fails returns a failure result whose
`attempts` field equals 4 (one initial attempt plus 3 retries), and no
position is created: fed that failure, `enterPosition` leaves
`currentPosition` null. -/
theorem placeOrder_all_fail_no_position (venue : ℕ → Option ℕ)
    (hv : ∀ n, venue n = none) (cfg : StratConfig) (st : StratState)
    (sig : EntrySignal) (hst : st.currentPosition = none) :
    placeOrder 3 venue true 0 = .failed 4 ∧
    (enterPosition cfg st sig
        (orderSuccessOf (placeOrder 3 venue true 0))).2.currentPosition = none := by
  have key : placeOrder 3 venue true 0 = .failed 4 :=
    placeOrderGo_all_fail 3 venue hv 4 0 rfl (by omega)
  refine ⟨key, ?_⟩
  rw [key]
  simpa [enterPosition, orderSuccessOf] using hst

/-- Witness for the amended C4: the constant-failure venue and the initial
strategy state. -/
theorem placeOrder_all_fail_no_position_witness :
    initStratState.currentPosition = none ∧
    (placeOrder 3 (fun _ => none) true 0 = .failed 4 ∧
      (enterPosition StratConfig.default initStratState ⟨true, .BUY, 100⟩
          (orderSuccessOf (placeOrder 3 (fun _ => none) true 0))).2.currentPosition =
        none) :=
  ⟨rfl, placeOrder_all_fail_no_position (fun _ => none) (fun _ => rfl)
    StratConfig.default initStratState ⟨true, .BUY, 100⟩ rfl⟩

/-! ## Claims about the trading-hours gate -/

/-- **C8 (counterexample)** — the window is inclusive, not strict: the
instant 10:00:00.000 is *not* strictly inside the default 10:00–15:15
window, yet `execute` run there (flat price above open, order accepted)
enters a position instead of returning `NO_ACTION`, and mutates the
state. -/
theorem execute_boundary_counterexample :
    ¬ (startTimeMs StratConfig.default < startTimeMs StratConfig.default ∧
        startTimeMs StratConfig.default < endTimeMs StratConfig.default) ∧
    (execute StratConfig.default defaultRM initStratState
        (startTimeMs StratConfig.default) 101 100 true).1 = .POSITION_ENTERED ∧
    (execute StratConfig.default defaultRM initStratState
        (startTimeMs StratConfig.default) 101 100 true).2 ≠ initStratState := by
  have hrc : (checkDailyLimits defaultRM 0 0).canTrade = true := by
    norm_num [checkDailyLimits, defaultRM, mkRiskManager, RMConfig.default]
  have hsig : generateEntrySignal 101 100 = ⟨true, .BUY, 101⟩ := by
    norm_num [generateEntrySignal]
  have hexec : execute StratConfig.default defaultRM initStratState
      (startTimeMs StratConfig.default) 101 100 true =
      enterPosition StratConfig.default initStratState ⟨true, .BUY, 101⟩ true := by
    simp only [execute, initStratState, lookForEntry, hsig]
    norm_num [isMarketHours, startTimeMs, endTimeMs, getHours, getMinutes,
      StratConfig.default, hrc]
  refine ⟨by simp, ?_, ?_⟩
  · rw [hexec]; simp [enterPosition]
  · rw [hexec]
    intro h
    have := congrArg StratState.currentPosition h
    simp [enterPosition, initStratState] at this

/-- **C8 (amended)** — for every strategy state, strictly *outside* the
inclusive window `[start, end]` (default 10:00–15:15, both bounds
included) one call to `execute` returns `NO_ACTION` and returns the state
unchanged. -/
theorem execute_outside_window (cfg : StratConfig) (rm : RiskManager)
    (st : StratState) (now : ℕ) (ltp openPrice : ℚ) (osucc : Bool)
    (h : now < startTimeMs cfg ∨ endTimeMs cfg < now) :
    execute cfg rm st now ltp openPrice osucc = (.NO_ACTION, st) := by
  have hmh : isMarketHours cfg now = false := by
    simp only [isMarketHours, Bool.and_eq_false_iff, decide_eq_false_iff_not]
    omega
  simp [execute, hmh]

/-- Witness for the amended C8: one millisecond before midnight-to-10:00,
i.e. `now = 0`, with a waiting-free initial state. -/
theorem execute_outside_window_witness :
    ((0 : ℕ) < startTimeMs StratConfig.default ∨
      endTimeMs StratConfig.default < 0) ∧
    execute StratConfig.default defaultRM initStratState 0 100 100 true =
      (.NO_ACTION, initStratState) :=
  ⟨Or.inl (by decide), execute_outside_window StratConfig.default defaultRM
    initStratState 0 100 100 true (Or.inl (by decide))⟩

/-! ## List folding helpers (shared) -/

/-- A `foldl max` over a list is one of the starting value or the list
elements. -/
theorem foldl_max_mem {α : Type} [LinearOrder α] (l : List α) :
    ∀ a : α, l.foldl max a ∈ a :: l := by
  induction l with
  | nil => intro a; simp
  | cons b t ih =>
    intro a
    simp only [List.foldl_cons]
    rcases List.mem_cons.1 (ih (max a b)) with h | h
    · rcases max_choice a b with hm | hm <;> rw [h, hm]
      · exact List.mem_cons_self _ _
      · exact List.mem_cons_of_mem _ (List.mem_cons_self _ _)
    · exact List.mem_cons_of_mem _ (List.mem_cons_of_mem _ h)

/-- A `foldl max` bounds the starting value and every list element from
above. -/
theorem le_foldl_max {α : Type} [LinearOrder α] (l : List α) :
    ∀ a x : α, x ∈ a :: l → x ≤ l.foldl max a := by
  induction l with
  | nil =>
    intro a x hx
    simp only [List.mem_singleton] at hx
    simp [hx]
  | cons b t ih =>
    intro a x hx
    simp only [List.foldl_cons]
    rcases List.mem_cons.1 hx with rfl | hx'
    · exact le_trans (le_max_left x b) (ih (max x b) _ (List.mem_cons_self _ _))
    · rcases List.mem_cons.1 hx' with rfl | h
      · exact le_trans (le_max_right a x) (ih (max a x) _ (List.mem_cons_self _ _))
      · exact ih (max a b) x (List.mem_cons_of_mem _ h)

/-- A `foldl min` over a list is one of the starting value or the list
elements. -/
theorem foldl_min_mem {α : Type} [LinearOrder α] (l : List α) :
    ∀ a : α, l.foldl min a ∈ a :: l := by
  induction l with
  | nil => intro a; simp
  | cons b t ih =>
    intro a
    simp only [List.foldl_cons]
    rcases List.mem_cons.1 (ih (min a b)) with h | h
    · rcases min_choice a b with hm | hm <;> rw [h, hm]
      · exact List.mem_cons_self _ _
      · exact List.mem_cons_of_mem _ (List.mem_cons_self _ _)
    · exact List.mem_cons_of_mem _ (List.mem_cons_of_mem _ h)

/-- A `foldl min` bounds the starting value and every list element from
below. -/
theorem foldl_min_le {α : Type} [LinearOrder α] (l : List α) :
    ∀ a x : α, x ∈ a :: l → l.foldl min a ≤ x := by
  induction l with
  | nil =>
    intro a x hx
    simp only [List.mem_singleton] at hx
    simp [hx]
  | cons b t ih =>
    intro a x hx
    simp only [List.foldl_cons]
    rcases List.mem_cons.1 hx with rfl | hx'
    · exact le_trans (ih (min x b) _ (List.mem_cons_self _ _)) (min_le_left x b)
    · rcases List.mem_cons.1 hx' with rfl | h
      · exact le_trans (ih (min a x) _ (List.mem_cons_self _ _)) (min_le_right a x)
      · exact ih (min a b) x (List.mem_cons_of_mem _ h)

/-- `maxList` of a non-empty list is an element of it. -/
theorem maxList_mem (l : List ℚ) (h : l ≠ []) : maxList l ∈ l := by
  match l, h with
  | a :: t, _ => exact foldl_max_mem t a

/-- `maxList` bounds every element from above. -/
theorem le_maxList (l : List ℚ) : ∀ x ∈ l, x ≤ maxList l := by
  match l with
  | [] => simp
  | a :: t => exact fun x hx => le_foldl_max t a x hx

/-- `minList` of a non-empty list is an element of it. -/
theorem minList_mem (l : List ℚ) (h : l ≠ []) : minList l ∈ l := by
  match l, h with
  | a :: t, _ => exact foldl_min_mem t a

/-- `minList` bounds every element from below. -/
theorem minList_le (l : List ℚ) : ∀ x ∈ l, minList l ≤ x := by
  match l with
  | [] => simp
  | a :: t => exact fun x hx => foldl_min_le t a x hx

/-- `minKey` of a non-empty key list is one of the keys. -/
theorem minKey_mem (l : List ℕ) (h : l ≠ []) : minKey l ∈ l := by
  match l, h with
  | a :: t, _ => exact foldl_min_mem t a

/-- `minKey` bounds every key from below. -/
theorem minKey_le (l : List ℕ) : ∀ x ∈ l, minKey l ≤ x := by
  match l with
  | [] => simp
  | a :: t => exact fun x hx => foldl_min_le t a x hx

/-! ## Claims about candle aggregation -/

/-- **C6** — aggregating exactly 60 consecutive minute candles to the
hour timeframe yields exactly one candle: timestamp and open of the first
candle, close of the last, high a maximum of the 60 highs, low a minimum
of the 60 lows, volume the sum of the 60 volumes. -/
theorem aggregateCandles_sixty (c : Candle) (rest : List Candle)
    (h : rest.length = 59) :
    ∃ a : Candle, aggregateCandles 60 (c :: rest) = [a] ∧
      a.timestamp = c.timestamp ∧
      a.openPrice = c.openPrice ∧
      a.close = (rest.getLastD c).close ∧
      a.high ∈ (c :: rest).map Candle.high ∧
      (∀ x ∈ (c :: rest).map Candle.high, x ≤ a.high) ∧
      a.low ∈ (c :: rest).map Candle.low ∧
      (∀ x ∈ (c :: rest).map Candle.low, a.low ≤ x) ∧
      a.volume = ((c :: rest).map Candle.volume).sum := by
  have htake : rest.take (60 - 1) = rest := List.take_of_length_le (by omega)
  have hdrop : rest.drop (60 - 1) = [] := List.drop_eq_nil_of_le (by omega)
  have heval : aggregateCandles 60 (c :: rest) =
      [{ timestamp := c.timestamp
         openPrice := c.openPrice
         high := maxList ((c :: rest).map Candle.high)
         low := minList ((c :: rest).map Candle.low)
         close := (rest.getLastD c).close
         volume := ((c :: rest).map Candle.volume).sum }] := by
    simp only [aggregateCandles, htake, hdrop]
  exact ⟨_, heval, rfl, rfl, rfl,
    maxList_mem _ (by simp),
    fun x hx => le_maxList _ x hx,
    minList_mem _ (by simp),
    fun x hx => minList_le _ x hx, rfl⟩

/-- Witness for C6: a concrete run of 60 demo candles. -/
theorem aggregateCandles_sixty_witness :
    demo59.length = 59 ∧
    (∃ a : Candle, aggregateCandles 60 (demoCandle 0 :: demo59) = [a] ∧
      a.timestamp = (demoCandle 0).timestamp ∧
      a.openPrice = (demoCandle 0).openPrice ∧
      a.close = (demo59.getLastD (demoCandle 0)).close ∧
      a.high ∈ (demoCandle 0 :: demo59).map Candle.high ∧
      (∀ x ∈ (demoCandle 0 :: demo59).map Candle.high, x ≤ a.high) ∧
      a.low ∈ (demoCandle 0 :: demo59).map Candle.low ∧
      (∀ x ∈ (demoCandle 0 :: demo59).map Candle.low, a.low ≤ x) ∧
      a.volume = ((demoCandle 0 :: demo59).map Candle.volume).sum) :=
  ⟨by simp [demo59], aggregateCandles_sixty (demoCandle 0) demo59 (by simp [demo59])⟩

/-! ## Claims about candle retention -/

/-- Looking up a key absent from the prefix continues in the suffix. -/
theorem lookupCandle_append_of_none (s t : List (ℕ × Candle)) (k : ℕ)
    (h : lookupCandle s k = none) :
    lookupCandle (s ++ t) k = lookupCandle t k := by
  induction s with
  | nil => rfl
  | cons e s ih =>
    by_cases he : e.1 = k
    · simp [lookupCandle, he] at h
    · have h' : lookupCandle s k = none := by
        simpa [lookupCandle, he] using h
      have hstep : lookupCandle ((e :: s) ++ t) k = lookupCandle (s ++ t) k := by
        simp [lookupCandle, he]
      rw [hstep]
      exact ih h'

/-- Replacing the value at one key leaves lookups of other keys
unchanged. -/
theorem lookupCandle_replace_ne (s : List (ℕ × Candle)) (kr : ℕ) (c : Candle)
    (k : ℕ) (hk : k ≠ kr) :
    lookupCandle (s.map fun e => if e.1 = kr then (kr, c) else e) k =
      lookupCandle s k := by
  induction s with
  | nil => rfl
  | cons e s ih =>
    simp only [List.map_cons]
    by_cases he : e.1 = kr
    · rw [if_pos he]
      simp only [lookupCandle]
      rw [if_neg (Ne.symm hk), if_neg (fun h' => hk (h'.symm.trans he))]
      exact ih
    · rw [if_neg he]
      simp only [lookupCandle]
      by_cases hek : e.1 = k
      · rw [if_pos hek, if_pos hek]
      · rw [if_neg hek, if_neg hek]
        exact ih

/-- `set` at one key preserves the absence of any other key. -/
theorem lookupCandle_setCandle_ne (s : List (ℕ × Candle)) (kr : ℕ) (c : Candle)
    (k : ℕ) (hk : k ≠ kr) (h : lookupCandle s k = none) :
    lookupCandle (setCandle s kr c) k = none := by
  unfold setCandle
  split
  · rw [lookupCandle_replace_ne s kr c k hk]
    exact h
  · rw [lookupCandle_append_of_none s _ k h]
    simp [lookupCandle, Ne.symm hk]

/-- `set` at a fresh key appends: the store grows by one. -/
theorem setCandle_fresh_length (s : List (ℕ × Candle)) (k : ℕ) (c : Candle)
    (h : lookupCandle s k = none) :
    (setCandle s k c).length = s.length + 1 := by
  unfold setCandle
  rw [if_neg (by simp [h])]
  simp

/-- `set` at an existing key replaces in place: the store size is
unchanged. -/
theorem setCandle_stale_length (s : List (ℕ × Candle)) (k : ℕ) (c : Candle)
    (h : (lookupCandle s k).isSome) :
    (setCandle s k c).length = s.length := by
  unfold setCandle
  rw [if_pos h]
  simp

/-- Loading historical candles whose timestamps are pairwise distinct and
all absent from the store grows it by exactly the batch size — nothing
caps it at 1000. -/
theorem loadHistoricalData_fresh_length :
    ∀ (hist : List Candle) (store : List (ℕ × Candle)),
      (∀ cd ∈ hist, lookupCandle store cd.timestamp = none) →
      (hist.map Candle.timestamp).Nodup →
      (loadHistoricalData store hist).length = store.length + hist.length := by
  intro hist
  induction hist with
  | nil => intro store _ _; simp [loadHistoricalData]
  | cons cd t ih =>
    intro store hfresh hnodup
    have h1 : lookupCandle store cd.timestamp = none :=
      hfresh cd (List.mem_cons_self _ _)
    have hnd : (∀ x ∈ t, ¬ x.timestamp = cd.timestamp) ∧
        (t.map Candle.timestamp).Nodup := by
      simpa using hnodup
    have hstep : loadHistoricalData store (cd :: t) =
        loadHistoricalData (setCandle store cd.timestamp cd) t := by
      simp [loadHistoricalData]
    rw [hstep, ih]
    · rw [setCandle_fresh_length store _ cd h1]
      simp only [List.length_cons]
      omega
    · exact fun d hd =>
        lookupCandle_setCandle_ne _ _ _ _ (hnd.1 d hd)
          (hfresh d (List.mem_cons_of_mem _ hd))
    · exact hnd.2

/-- **C7 (counterexample)** — a historical load of 1001 distinct-timestamp
candles into an empty store leaves 1001 candles: `loadHistoricalData`
enforces no retention bound, refuting the invariant for the
historical-data operation. -/
theorem loadHistoricalData_overflows_retention :
    1000 < (loadHistoricalData [] demo1001).length := by
  have hts : demo1001.map Candle.timestamp = List.range 1001 := by
    simp [demo1001, List.map_map]
    exact List.map_id _
  have hlen := loadHistoricalData_fresh_length demo1001 []
    (fun cd _ => rfl) (hts ▸ List.nodup_range 1001)
  have h1001 : demo1001.length = 1001 := by simp [demo1001]
  omega

/-- Deleting a key that is present strictly shrinks the store. -/
theorem length_deleteCandle_lt (s : List (ℕ × Candle)) (m : ℕ)
    (h : m ∈ s.map Prod.fst) : (deleteCandle s m).length < s.length := by
  induction s with
  | nil => simp at h
  | cons e t ih =>
    by_cases he : e.1 = m
    · have hstep : deleteCandle (e :: t) m = deleteCandle t m := by
        simp [deleteCandle, List.filter_cons, he]
      rw [hstep]
      have hle : (deleteCandle t m).length ≤ t.length :=
        List.length_filter_le _ t
      simp only [List.length_cons]
      omega
    · have hmt : m ∈ t.map Prod.fst := by
        rw [List.map_cons] at h
        rcases List.mem_cons.1 h with heq | hmem
        · exact absurd heq.symm he
        · exact hmem
      have hstep : deleteCandle (e :: t) m = e :: deleteCandle t m := by
        simp [deleteCandle, List.filter_cons, he]
      rw [hstep]
      simpa using Nat.succ_lt_succ (ih hmt)

/-- The keys surviving a delete are exactly the other keys. -/
theorem keys_deleteCandle (s : List (ℕ × Candle)) (m : ℕ) :
    (deleteCandle s m).map Prod.fst =
      (s.map Prod.fst).filter fun x => decide (x ≠ m) := by
  induction s with
  | nil => rfl
  | cons e t ih =>
    by_cases he : e.1 = m <;>
      simp [deleteCandle, List.filter_cons, he, ih, deleteCandle] <;>
      simp [deleteCandle] at ih <;> exact ih

/-- **C7 (amended)** — the per-tick update `updateCandleData` does
maintain the retention invariant: starting from at most 1000 candles it
ends with at most 1000, and any key dropped by the eviction phase is a
smallest (oldest) key — it is bounded by every key that remains.
`loadHistoricalData` performs no such trimming. -/
theorem updateCandleData_retention (store : List (ℕ × Candle)) (k : ℕ)
    (ltp vol : ℚ) (h : store.length ≤ 1000) :
    (updateCandleData store k ltp vol).length ≤ 1000 ∧
    (∀ k1 ∈ (updateCandleSet store k ltp vol).map Prod.fst,
      k1 ∉ (updateCandleData store k ltp vol).map Prod.fst →
      ∀ k2 ∈ (updateCandleData store k ltp vol).map Prod.fst, k1 ≤ k2) := by
  have hmid : (updateCandleSet store k ltp vol).length ≤ store.length + 1 := by
    unfold updateCandleSet
    cases hl : lookupCandle store k with
    | some cur =>
      rw [setCandle_stale_length _ _ _ (by simp [hl])]
      omega
    | none =>
      rw [setCandle_fresh_length _ _ _ hl]
  by_cases hbig : (updateCandleSet store k ltp vol).length > 1000
  · have hupd : updateCandleData store k ltp vol =
        deleteCandle (updateCandleSet store k ltp vol)
          (minKey ((updateCandleSet store k ltp vol).map Prod.fst)) := by
      simp [updateCandleData, hbig]
    have hmem : minKey ((updateCandleSet store k ltp vol).map Prod.fst) ∈
        (updateCandleSet store k ltp vol).map Prod.fst := by
      apply minKey_mem
      intro hnil
      have h0 : (updateCandleSet store k ltp vol).length = 0 := by
        simpa using congrArg List.length (List.map_eq_nil_iff.1 hnil)
      omega
    constructor
    · rw [hupd]
      have hlt := length_deleteCandle_lt _ _ hmem
      omega
    · intro k1 hk1 hnk1 k2 hk2
      rw [hupd, keys_deleteCandle] at hnk1 hk2
      by_cases hk1m :
          k1 = minKey ((updateCandleSet store k ltp vol).map Prod.fst)
      · rw [hk1m]
        exact minKey_le _ k2 (List.mem_of_mem_filter hk2)
      · exact absurd (List.mem_filter.2 ⟨hk1, by simpa using hk1m⟩) hnk1
  · have hupd : updateCandleData store k ltp vol =
        updateCandleSet store k ltp vol := by
      simp [updateCandleData, hbig]
    constructor
    · rw [hupd]
      omega
    · intro k1 hk1 hnk1 k2 hk2
      rw [hupd] at hnk1
      exact absurd hk1 hnk1

/-- Witness for the amended C7: one tick into an empty store. -/
theorem updateCandleData_retention_witness :
    ([] : List (ℕ × Candle)).length ≤ 1000 ∧
    ((updateCandleData [] 5 1 1).length ≤ 1000 ∧
      (∀ k1 ∈ (updateCandleSet [] 5 1 1).map Prod.fst,
        k1 ∉ (updateCandleData [] 5 1 1).map Prod.fst →
        ∀ k2 ∈ (updateCandleData [] 5 1 1).map Prod.fst, k1 ≤ k2)) :=
  ⟨by simp, updateCandleData_retention [] 5 1 1 (by simp)⟩

end KiteApp
